import Mathlib

/-!
The poll / parse / record cycle of elgatoexporter.

A shallow embedding of `src/main.go` (`parseJSON`, `doPoll`, the polling loop of `main`)
and of `src/recorder.go` (`NewRecorder` and the ten `prometheusRecorder` methods).

Modelling conventions.

* Everything a cycle obtains from outside the repository is an explicit input: the clock
  readings (`time.Now`, `time.Since`), what `hc.Do` returns, what `io.ReadAll` returns,
  what `json.Unmarshal` returns for a body, and how `time.Time.Format` prints a time.
* Effects are recorded, in program order, as a list of `Event`s.  The calls on the global
  `recorder` interface are the `Event.call` entries; `prometheusRecorder.replay` interprets
  them on the metric state of `recorder.go`.
* A Go function may return, end the process (`log.Fatal` calls `os.Exit(1)`) or panic;
  `Ctl` distinguishes the three.
* The three light gauges hold `float64(x)` of the Go `int` they are set from; that value
  is always a whole number, and `float64` below computes it with integer arithmetic
  (round to nearest, ties to even, on a 53-bit significand).
* Counters are natural numbers, the three time gauges hold the Unix seconds as an
  integer, and accumulated durations are kept in nanoseconds (the unit of
  `time.Duration`).
-/

namespace Elgato

/-! ## Data decoded from the device (main.go, lines 32-41) -/

/-- The Go struct `elgatoLight`: one light of the reply. -/
structure elgatoLight where
  On : Int
  Brightness : Int
  Temperature : Int
deriving DecidableEq, Repr

/-- The Go struct `elgatoResponse`: the decoded reply of the device. -/
structure elgatoResponse where
  NumberOfLights : Int
  Lights : List elgatoLight
deriving DecidableEq, Repr

/-- The Go struct `Config` (main.go, lines 49-59); durations are in nanoseconds. -/
structure Config where
  timeout : Int
  ipaddress : String
  port : Int
  metricport : Int
  pollinterval : Int
  pollurl : String
  metricurl : String
  datastore : String
  file : String
deriving DecidableEq, Repr

/-- The flag defaults of `RegisterFlags` (main.go, lines 61-71). -/
def RegisterFlags : Config where
  timeout := 1000000000
  ipaddress := "192.168.1.209"
  port := 9123
  metricport := 9091
  pollinterval := 10000000000
  pollurl := "elgato/lights"
  metricurl := "/metrics"
  datastore := ""
  file := ""

/-! ## Time -/

/-- A reading of `time.Now()`: seconds since the epoch and the nanoseconds within the second. -/
structure Time where
  sec : Int
  nsec : Nat
deriving DecidableEq, Repr

/-- The method `time.Time.Unix`. -/
def Time.Unix (t : Time) : Int := t.sec

/-- A measured `time.Since(...)`, in nanoseconds; readings of the monotonic clock never go back. -/
abbrev Duration := Nat

/-! ## The Recorder interface (recorder.go, lines 14-25) as a datatype of calls -/

/-- One call on the `Recorder` interface, with its argument. -/
inductive RecorderCall where
  | measurePolls (state : String)
  | measureStatusCode (code : Int)
  | measureLastGoodPoll (ts : Time)
  | measureLastPoll (ts : Time)
  | measurePollDur (duration : Duration)
  | measureParseDur (duration : Duration)
  | measureLastError (ts : Time)
  | measureOnOff (onoff : Int)
  | measureBrightness (val : Int)
  | measureTemperature (temp : Int)
deriving DecidableEq, Repr

/-- The observable steps of a cycle, in program order. -/
inductive Event where
  | httpDo (url : String)
  | readAll
  | closeBody
  | print (msg : String)
  | writeFile (fname : String) (body : String)
  | logFatal (msg : String)
  | sleep (d : Int)
  | call (c : RecorderCall)
deriving DecidableEq, Repr

/-- How a Go function stops: it returns a value, the process exits, or it panics. -/
inductive Ctl (α : Type) where
  | returned (v : α)
  | exited (code : Nat)
  | panicked (msg : String)
deriving DecidableEq, Repr

/-! ## recorder.go: the metric state and the methods of prometheusRecorder -/

/-- The Go struct `prometheusRecorder` (recorder.go, lines 87-98): two labelled counter
vectors, two plain counters and six gauges. -/
structure prometheusRecorder where
  elgatoPolls : String → Nat
  elgatoStatusCodeCount : String → Nat
  elgatoLastGoodPollSeconds : Int
  elgatoLastPollSeconds : Int
  elgatoPollDurSeconds : Nat
  elgatoParseDurSeconds : Nat
  elgatoLastErrorTimeSeconds : Int
  elgatoOnOff : Int
  elgatoBrightness : Int
  elgatoTemperature : Int

/-- The constructor `NewRecorder` (recorder.go, lines 27-85): every metric starts at zero. -/
def NewRecorder : prometheusRecorder where
  elgatoPolls := fun _ => 0
  elgatoStatusCodeCount := fun _ => 0
  elgatoLastGoodPollSeconds := 0
  elgatoLastPollSeconds := 0
  elgatoPollDurSeconds := 0
  elgatoParseDurSeconds := 0
  elgatoLastErrorTimeSeconds := 0
  elgatoOnOff := 0
  elgatoBrightness := 0
  elgatoTemperature := 0

/-- The call `vec.WithLabelValues(label).Add(n)` on a counter vector. -/
def WithLabelValuesAdd (vec : String → Nat) (label : String) (n : Nat) : String → Nat :=
  fun l => if l = label then vec l + n else vec l

/-- The range of the Go type `int` on a 64-bit platform. -/
abbrev fitsInt (n : Int) : Prop := -(2 : Int) ^ 63 ≤ n ∧ n < (2 : Int) ^ 63

/-- How many low bits a magnitude has beyond the 53 bits of a `float64` significand:
the number of halvings until it is below 2^53 (at most `fuel` of them). -/
def excessBits : Nat → Nat → Nat
  | 0, _ => 0
  | fuel + 1, a => if a < 2 ^ 53 then 0 else excessBits fuel (a / 2) + 1

/-- The Go conversion `float64(x)` of a 64-bit `int`, as the whole number the resulting
float denotes: the magnitude is cut to 53 significant bits, rounding to nearest with ties
to the even significand, and the low bits are filled with zeros. -/
def float64 (x : Int) : Int :=
  let a := x.natAbs
  let e := excessBits 64 a
  let q := a / 2 ^ e
  let r := a % 2 ^ e
  let q1 := if 2 * r > 2 ^ e ∨ (2 * r = 2 ^ e ∧ q % 2 = 1) then q + 1 else q
  x.sign * ((q1 * 2 ^ e : Nat) : Int)

/-- The verb `%d` of `fmt.Sprintf` on an integer. -/
def sprintfD (n : Int) : String := toString n

/-- Method `measurePolls` (recorder.go, lines 101-103). -/
def prometheusRecorder.measurePolls (r : prometheusRecorder) (state : String) :
    prometheusRecorder :=
  { r with elgatoPolls := WithLabelValuesAdd r.elgatoPolls state 1 }

/-- Method `measureStatusCode` (recorder.go, lines 106-109). -/
def prometheusRecorder.measureStatusCode (r : prometheusRecorder) (code : Int) :
    prometheusRecorder :=
  let codeStr := sprintfD code
  { r with elgatoStatusCodeCount := WithLabelValuesAdd r.elgatoStatusCodeCount codeStr 1 }

/-- Method `measureLastGoodPoll` (recorder.go, lines 112-114). -/
def prometheusRecorder.measureLastGoodPoll (r : prometheusRecorder) (ts : Time) :
    prometheusRecorder :=
  { r with elgatoLastGoodPollSeconds := ts.Unix }

/-- Method `measureLastPoll` (recorder.go, lines 117-119). -/
def prometheusRecorder.measureLastPoll (r : prometheusRecorder) (ts : Time) :
    prometheusRecorder :=
  { r with elgatoLastPollSeconds := ts.Unix }

/-- Method `measurePollDur` (recorder.go, lines 122-124). -/
def prometheusRecorder.measurePollDur (r : prometheusRecorder) (duration : Duration) :
    prometheusRecorder :=
  { r with elgatoPollDurSeconds := r.elgatoPollDurSeconds + duration }

/-- Method `measureParseDur` (recorder.go, lines 127-129). -/
def prometheusRecorder.measureParseDur (r : prometheusRecorder) (duration : Duration) :
    prometheusRecorder :=
  { r with elgatoParseDurSeconds := r.elgatoParseDurSeconds + duration }

/-- Method `measureLastError` (recorder.go, lines 132-134). -/
def prometheusRecorder.measureLastError (r : prometheusRecorder) (ts : Time) :
    prometheusRecorder :=
  { r with elgatoLastErrorTimeSeconds := ts.Unix }

/-- Method `measureOnOff` (recorder.go, lines 137-139). -/
def prometheusRecorder.measureOnOff (r : prometheusRecorder) (onoff : Int) :
    prometheusRecorder :=
  { r with elgatoOnOff := float64 onoff }

/-- Method `measureBrightness` (recorder.go, lines 142-144). -/
def prometheusRecorder.measureBrightness (r : prometheusRecorder) (bright : Int) :
    prometheusRecorder :=
  { r with elgatoBrightness := float64 bright }

/-- Method `measureTemperature` (recorder.go, lines 147-149). -/
def prometheusRecorder.measureTemperature (r : prometheusRecorder) (temp : Int) :
    prometheusRecorder :=
  { r with elgatoTemperature := float64 temp }

/-- Dispatch of one interface call to the method of `prometheusRecorder`. -/
def prometheusRecorder.handle (r : prometheusRecorder) : RecorderCall → prometheusRecorder
  | .measurePolls state => r.measurePolls state
  | .measureStatusCode code => r.measureStatusCode code
  | .measureLastGoodPoll ts => r.measureLastGoodPoll ts
  | .measureLastPoll ts => r.measureLastPoll ts
  | .measurePollDur d => r.measurePollDur d
  | .measureParseDur d => r.measureParseDur d
  | .measureLastError ts => r.measureLastError ts
  | .measureOnOff v => r.measureOnOff v
  | .measureBrightness v => r.measureBrightness v
  | .measureTemperature v => r.measureTemperature v

/-- The metric state after a sequence of interface calls. -/
def prometheusRecorder.replay (r : prometheusRecorder) (cs : List RecorderCall) :
    prometheusRecorder :=
  cs.foldl prometheusRecorder.handle r

/-! ## Reading a trace -/

/-- The recorder calls of a trace, in order. -/
def calls : List Event → List RecorderCall
  | [] => []
  | .call c :: es => c :: calls es
  | _ :: es => calls es

/-- The labels passed to `measurePolls`, in order. -/
def pollLabels : List RecorderCall → List String
  | [] => []
  | .measurePolls s :: cs => s :: pollLabels cs
  | _ :: cs => pollLabels cs

/-- The durations passed to `measureParseDur`, in order. -/
def parseDurs : List RecorderCall → List Duration
  | [] => []
  | .measureParseDur d :: cs => d :: parseDurs cs
  | _ :: cs => parseDurs cs

/-- The times passed to `measureLastPoll`, in order. -/
def lastPolls : List RecorderCall → List Time
  | [] => []
  | .measureLastPoll t :: cs => t :: lastPolls cs
  | _ :: cs => lastPolls cs

/-- The times passed to `measureLastGoodPoll`, in order. -/
def lastGoodPolls : List RecorderCall → List Time
  | [] => []
  | .measureLastGoodPoll t :: cs => t :: lastGoodPolls cs
  | _ :: cs => lastGoodPolls cs

/-- The times passed to `measureLastError`, in order. -/
def lastErrors : List RecorderCall → List Time
  | [] => []
  | .measureLastError t :: cs => t :: lastErrors cs
  | _ :: cs => lastErrors cs

/-- The codes passed to `measureStatusCode`, in order. -/
def statusCodes : List RecorderCall → List Int
  | [] => []
  | .measureStatusCode c :: cs => c :: statusCodes cs
  | _ :: cs => statusCodes cs

/-- The calls that set one of the three light gauges, in order. -/
def gaugeCalls : List RecorderCall → List RecorderCall
  | [] => []
  | .measureOnOff v :: cs => .measureOnOff v :: gaugeCalls cs
  | .measureBrightness v :: cs => .measureBrightness v :: gaugeCalls cs
  | .measureTemperature v :: cs => .measureTemperature v :: gaugeCalls cs
  | _ :: cs => gaugeCalls cs

/-- Whether an event is the sending of the HTTP request. -/
def Event.isSend : Event → Bool
  | .httpDo _ => true
  | _ => false

/-- Whether an event is a call of `measureLastPoll`. -/
def Event.isLastPoll : Event → Bool
  | .call (.measureLastPoll _) => true
  | _ => false

/-- Position of the first event satisfying a test, the length of the trace when there is none. -/
def firstIdx (p : Event → Bool) : List Event → Nat
  | [] => 0
  | e :: es => if p e then 0 else firstIdx p es + 1

/-! ## main.go: parseJSON -/

/-- What `json.Unmarshal(body, &r)` yields: an error text, or the decoded value. -/
abbrev Unmarshal := String → Except String elgatoResponse

/-- Function `parseJSON` (main.go, lines 73-97).  `parseTime` and `durParse` are the
readings of lines 75 and 77.  On a decoding error the function records the error time and
calls `log.Fatal`, which ends the process with status 1, so line 85 is never reached.
With no error, `r.Lights[0]` is evaluated as the argument of `measureOnOff`; on an empty
slice that index expression panics before any gauge is set. -/
def parseJSON (unmarshal : Unmarshal) (body : String) (parseTime : Time)
    (durParse : Duration) : Ctl (Option String) × List Event :=
  let pre : List Event := [.call (.measureParseDur durParse)]
  match unmarshal body with
  | .error err =>
    (.exited 1, pre ++ [.call (.measureLastError parseTime), .logFatal ("parsing:" ++ err)])
  | .ok r =>
    match r.Lights with
    | [] => (.panicked "runtime error: index out of range [0] with length 0", pre)
    | l :: _ =>
      (.returned none,
        pre ++ [.call (.measureOnOff l.On),
                .call (.measureBrightness l.Brightness),
                .call (.measureTemperature l.Temperature)])

/-! ## main.go: doPoll and the polling loop -/

/-- The part of an `http.Response` the cycle uses: the status code and what
`io.ReadAll(resp.Body)` returns (an error text or the bytes). -/
structure Response where
  StatusCode : Int
  Body : Except String String

/-- Everything one run of `doPoll` obtains from outside: `pollTime` and `durPoll` (lines
101, 104), the result of `hc.Do` (line 103), the readings around the call of `parseJSON`
(lines 139, 141), and the readings taken inside `parseJSON` (lines 75, 77). -/
structure PollEnv where
  pollTime : Time
  durPoll : Duration
  result : Except String Response
  parseTime : Time
  durParse : Duration
  jsonTime : Time
  jsonDur : Duration

/-- The URL built on line 100. -/
def pollURL (cfg : Config) : String :=
  "http://" ++ cfg.ipaddress ++ ":" ++ sprintfD cfg.port ++ "/" ++ cfg.pollurl

/-- Function `doPoll` (main.go, lines 99-152), for a run in which `hc.Do` returns; the
error result of `http.NewRequest` (line 102) is overwritten by that of `hc.Do` (line 103),
which is the one tested on line 111.  `format` is `time.Time.Format` with the layout of
line 135, and the result of `os.WriteFile` is discarded as in the source.  The deferred
`resp.Body.Close()` runs when the function returns or panics, not when the process exits. -/
def doPoll (cfg : Config) (unmarshal : Unmarshal) (format : Time → String)
    (env : PollEnv) : Ctl Unit × List Event :=
  let url := pollURL cfg
  let pollTime := env.pollTime
  -- lines 102-107
  let t0 : List Event :=
    [.httpDo url, .call (.measureLastPoll pollTime), .call (.measurePollDur env.durPoll)]
  match env.result with
  | .error err =>
    -- lines 111-117
    (.returned (),
      t0 ++ [.print ("Got error [" ++ err ++ "]\n"),
             .call (.measureLastError pollTime),
             .call (.measurePolls "error")])
  | .ok resp =>
    -- lines 122-124
    let t1 := t0 ++ [.call (.measureStatusCode resp.StatusCode), .readAll]
    match resp.Body with
    | .error _ =>
      -- lines 125-129
      (.returned (), t1 ++ [.call (.measurePolls "error-readall"), .closeBody])
    | .ok body =>
      -- lines 131-137
      let t2 := t1 ++ [.call (.measureLastGoodPoll pollTime)] ++
        (if cfg.datastore ≠ "" then
          [.writeFile (cfg.datastore ++ "/" ++ format pollTime) body]
         else [])
      -- lines 139-142
      match parseJSON unmarshal body env.jsonTime env.jsonDur with
      | (.exited code, tp) => (.exited code, t2 ++ tp)
      | (.panicked msg, tp) => (.panicked msg, t2 ++ tp ++ [.closeBody])
      | (.returned err, tp) =>
        let t3 := t2 ++ tp ++ [.call (.measureParseDur env.durParse)]
        match err with
        | some _ =>
          -- lines 144-149
          (.returned (),
            t3 ++ [.call (.measureLastError pollTime),
                   .call (.measurePolls "parse-error"),
                   .closeBody])
        | none =>
          -- line 151
          (.returned (), t3 ++ [.call (.measurePolls "ok"), .closeBody])

/-- The loop of `main` (main.go, lines 194-197), unrolled over the inputs of its first
cycles: each cycle is a `doPoll` followed by a sleep; the loop stops early when a cycle
ends the process.  The result `returned` means that the process is still looping. -/
def pollLoop (cfg : Config) (unmarshal : Unmarshal) (format : Time → String) :
    List PollEnv → Ctl Unit × List Event
  | [] => (.returned (), [])
  | env :: rest =>
    match doPoll cfg unmarshal format env with
    | (.returned (), t) =>
      let next := pollLoop cfg unmarshal format rest
      (next.1, t ++ .sleep cfg.pollinterval :: next.2)
    | (stop, t) => (stop, t)

/-! ## Concrete inputs -/

/-- The reply quoted in the header of main.go (line 9). -/
def sampleBody : String :=
  "\x7b\"numberOfLights\":1,\"lights\":[\x7b\"on\":1,\"brightness\":55,\"temperature\":198\x7d]\x7d"

/-- A reply that lists no light. -/
def emptyLightsBody : String := "\x7b\"numberOfLights\":0,\"lights\":[]\x7d"

/-- A reply with two lights. -/
def twoLightsBody : String :=
  "\x7b\"numberOfLights\":2,\"lights\":[\x7b\"on\":0,\"brightness\":7,\"temperature\":344\x7d,\x7b\"on\":1,\"brightness\":90,\"temperature\":143\x7d]\x7d"

/-- A reply whose brightness is 2^53 + 1. -/
def bigBrightnessBody : String :=
  "\x7b\"numberOfLights\":1,\"lights\":[\x7b\"on\":1,\"brightness\":9007199254740993,\"temperature\":198\x7d]\x7d"

/-- A body that is not JSON. -/
def malformedBody : String := "not json"

/-- The results of `json.Unmarshal` into an `elgatoResponse` on the five bodies above (field
names match without regard to case); any other body is reported as an error here. -/
def sampleUnmarshal : Unmarshal := fun body =>
  if body = sampleBody then .ok ⟨1, [⟨1, 55, 198⟩]⟩
  else if body = emptyLightsBody then .ok ⟨0, []⟩
  else if body = twoLightsBody then .ok ⟨2, [⟨0, 7, 344⟩, ⟨1, 90, 143⟩]⟩
  else if body = bigBrightnessBody then .ok ⟨1, [⟨1, 9007199254740993, 198⟩]⟩
  else .error "invalid character 'o' in literal null (expecting 'u')"

/-- A stand-in for `time.Time.Format`: seconds, a dot, nanoseconds. -/
def sampleFormat (t : Time) : String := toString t.sec ++ "." ++ toString t.nsec

/-- Clock readings and a reply for one cycle. -/
def sampleEnv (result : Except String Response) : PollEnv where
  pollTime := ⟨1700000000, 250⟩
  durPoll := 40000000
  result := result
  parseTime := ⟨1700000000, 40000300⟩
  durParse := 9000
  jsonTime := ⟨1700000000, 40000400⟩
  jsonDur := 7000

/-- A cycle whose request times out. -/
def timeoutEnv : PollEnv := sampleEnv (.error "context deadline exceeded")

/-- A cycle whose reply arrives with status 200 but whose body cannot be read. -/
def readFailEnv : PollEnv := sampleEnv (.ok ⟨200, .error "unexpected EOF"⟩)

/-- A cycle whose reply has the given status code and body. -/
def replyEnv (code : Int) (body : String) : PollEnv := sampleEnv (.ok ⟨code, .ok body⟩)

/-- Whether the request of a cycle failed: `hc.Do` returned an error. -/
def PollEnv.requestFailed (env : PollEnv) : Bool :=
  match env.result with
  | .error _ => true
  | .ok _ => false

/-! ## Lemmas on traces -/

@[simp] theorem calls_append (a b : List Event) : calls (a ++ b) = calls a ++ calls b := by
  induction a with
  | nil => rfl
  | cons e es ih => cases e <;> simp [calls, ih]

@[simp] theorem pollLabels_append (a b : List RecorderCall) :
    pollLabels (a ++ b) = pollLabels a ++ pollLabels b := by
  induction a with
  | nil => rfl
  | cons c cs ih => cases c <;> simp [pollLabels, ih]

@[simp] theorem lastGoodPolls_append (a b : List RecorderCall) :
    lastGoodPolls (a ++ b) = lastGoodPolls a ++ lastGoodPolls b := by
  induction a with
  | nil => rfl
  | cons c cs ih => cases c <;> simp [lastGoodPolls, ih]

theorem replay_append (r : prometheusRecorder) (a b : List RecorderCall) :
    r.replay (a ++ b) = (r.replay a).replay b := by
  simp [prometheusRecorder.replay, List.foldl_append]

/-- The trace of `parseJSON` on a decodable body with at least one light. -/
theorem parseJSON_cons (unmarshal : Unmarshal) (body : String) (parseTime : Time)
    (durParse : Duration) (n : Int) (l : elgatoLight) (rest : List elgatoLight)
    (hvalid : unmarshal body = .ok ⟨n, l :: rest⟩) :
    parseJSON unmarshal body parseTime durParse =
      (.returned none,
        [.call (.measureParseDur durParse), .call (.measureOnOff l.On),
         .call (.measureBrightness l.Brightness), .call (.measureTemperature l.Temperature)]) := by
  simp [parseJSON, hvalid]

/-- The recorder calls of `doPoll` when the request fails. -/
theorem doPoll_failed (cfg : Config) (unmarshal : Unmarshal) (format : Time → String)
    (env : PollEnv) (hfail : env.requestFailed = true) :
    (doPoll cfg unmarshal format env).1 = .returned () ∧
    calls (doPoll cfg unmarshal format env).2 =
      [.measureLastPoll env.pollTime, .measurePollDur env.durPoll,
       .measureLastError env.pollTime, .measurePolls "error"] := by
  unfold PollEnv.requestFailed at hfail
  unfold doPoll
  cases hres : env.result with
  | error e => simp [calls]
  | ok resp => simp [hres] at hfail

/-- The recorder calls of `doPoll` on a reply whose body decodes to at least one light. -/
theorem doPoll_calls_ok (cfg : Config) (unmarshal : Unmarshal) (format : Time → String)
    (env : PollEnv) (resp : Response) (body : String) (n : Int) (l : elgatoLight)
    (rest : List elgatoLight) (hresp : env.result = .ok resp) (hbody : resp.Body = .ok body)
    (hvalid : unmarshal body = .ok ⟨n, l :: rest⟩) :
    (doPoll cfg unmarshal format env).1 = .returned () ∧
    calls (doPoll cfg unmarshal format env).2 =
      [.measureLastPoll env.pollTime, .measurePollDur env.durPoll,
       .measureStatusCode resp.StatusCode, .measureLastGoodPoll env.pollTime,
       .measureParseDur env.jsonDur, .measureOnOff l.On, .measureBrightness l.Brightness,
       .measureTemperature l.Temperature, .measureParseDur env.durParse,
       .measurePolls "ok"] := by
  have hp := parseJSON_cons unmarshal body env.jsonTime env.jsonDur n l rest hvalid
  unfold doPoll
  simp only [hresp, hbody, hp]
  by_cases hd : cfg.datastore = "" <;> simp [calls, hd]

@[simp] theorem lastPolls_append (a b : List RecorderCall) :
    lastPolls (a ++ b) = lastPolls a ++ lastPolls b := by
  induction a with
  | nil => rfl
  | cons c cs ih => cases c <;> simp [lastPolls, ih]

/-- One failed cycle adds one to the `error` counter and leaves the last-good-poll gauge. -/
theorem replay_failed_cycle (r : prometheusRecorder) (t : Time) (d : Duration) :
    (r.replay [.measureLastPoll t, .measurePollDur d, .measureLastError t,
        .measurePolls "error"]).elgatoPolls = WithLabelValuesAdd r.elgatoPolls "error" 1 ∧
    (r.replay [.measureLastPoll t, .measurePollDur d, .measureLastError t,
        .measurePolls "error"]).elgatoLastGoodPollSeconds = r.elgatoLastGoodPollSeconds :=
  ⟨rfl, rfl⟩

/-- The loop over cycles whose requests all fail, from any metric state. -/
theorem pollLoop_failed (cfg : Config) (unmarshal : Unmarshal) (format : Time → String)
    (envs : List PollEnv) (hall : ∀ env ∈ envs, env.requestFailed = true) :
    (pollLoop cfg unmarshal format envs).1 = .returned () ∧
    pollLabels (calls (pollLoop cfg unmarshal format envs).2)
      = List.replicate envs.length "error" ∧
    lastGoodPolls (calls (pollLoop cfg unmarshal format envs).2) = [] ∧
    ∀ r0 : prometheusRecorder,
      (r0.replay (calls (pollLoop cfg unmarshal format envs).2)).elgatoPolls
        = WithLabelValuesAdd r0.elgatoPolls "error" envs.length ∧
      (r0.replay (calls (pollLoop cfg unmarshal format envs).2)).elgatoLastGoodPollSeconds
        = r0.elgatoLastGoodPollSeconds := by
  induction envs with
  | nil =>
    refine ⟨rfl, rfl, rfl, fun r0 => ⟨?_, rfl⟩⟩
    funext l
    simp [pollLoop, calls, prometheusRecorder.replay, WithLabelValuesAdd]
  | cons env rest ih =>
    have hrest : ∀ e ∈ rest, e.requestFailed = true :=
      fun e he => hall e (List.mem_cons_of_mem _ he)
    obtain ⟨ih1, ih2, ih3, ih4⟩ := ih hrest
    obtain ⟨h1, h2⟩ := doPoll_failed cfg unmarshal format env (hall env (List.mem_cons_self _ _))
    rcases hdo : doPoll cfg unmarshal format env with ⟨st, t⟩
    rw [hdo] at h1 h2
    simp only at h1 h2
    subst h1
    have hloop : pollLoop cfg unmarshal format (env :: rest) =
        ((pollLoop cfg unmarshal format rest).1,
          t ++ .sleep cfg.pollinterval :: (pollLoop cfg unmarshal format rest).2) := by
      simp [pollLoop, hdo]
    have hcalls : calls (t ++ .sleep cfg.pollinterval :: (pollLoop cfg unmarshal format rest).2)
        = calls t ++ calls (pollLoop cfg unmarshal format rest).2 := by
      rw [calls_append]; rfl
    rw [hloop]
    simp only [hcalls, h2]
    refine ⟨ih1, ?_, ?_, fun r0 => ?_⟩
    · rw [pollLabels_append, ih2]; rfl
    · rw [lastGoodPolls_append, ih3]; rfl
    · rw [replay_append]
      obtain ⟨hp, hg⟩ := replay_failed_cycle r0 env.pollTime env.durPoll
      obtain ⟨ihp, ihg⟩ := ih4 (r0.replay [.measureLastPoll env.pollTime,
        .measurePollDur env.durPoll, .measureLastError env.pollTime, .measurePolls "error"])
      refine ⟨?_, by rw [ihg, hg]⟩
      rw [ihp, hp]
      funext l
      by_cases hl : l = "error" <;> simp [WithLabelValuesAdd, hl]
      omega

/-- The trace of `doPoll` when the reply arrives but its body cannot be read. -/
theorem doPoll_read_failed (cfg : Config) (unmarshal : Unmarshal) (format : Time → String)
    (env : PollEnv) (resp : Response) (err : String) (hresp : env.result = .ok resp)
    (hbody : resp.Body = .error err) :
    doPoll cfg unmarshal format env =
      (.returned (),
        [.httpDo (pollURL cfg), .call (.measureLastPoll env.pollTime),
         .call (.measurePollDur env.durPoll), .call (.measureStatusCode resp.StatusCode),
         .readAll, .call (.measurePolls "error-readall"), .closeBody]) := by
  simp [doPoll, hresp, hbody]

/-- The outcome and recorder calls of `doPoll` on a body that `json.Unmarshal` rejects. -/
theorem doPoll_calls_malformed (cfg : Config) (unmarshal : Unmarshal)
    (format : Time → String) (env : PollEnv) (resp : Response) (body : String)
    (err : String) (hresp : env.result = .ok resp) (hbody : resp.Body = .ok body)
    (hbad : unmarshal body = .error err) :
    (doPoll cfg unmarshal format env).1 = .exited 1 ∧
    calls (doPoll cfg unmarshal format env).2 =
      [.measureLastPoll env.pollTime, .measurePollDur env.durPoll,
       .measureStatusCode resp.StatusCode, .measureLastGoodPoll env.pollTime,
       .measureParseDur env.jsonDur, .measureLastError env.jsonTime] ∧
    (doPoll cfg unmarshal format env).2.getLast? = some (.logFatal ("parsing:" ++ err)) := by
  have hp : parseJSON unmarshal body env.jsonTime env.jsonDur =
      (.exited 1, [.call (.measureParseDur env.jsonDur),
        .call (.measureLastError env.jsonTime), .logFatal ("parsing:" ++ err)]) := by
    simp [parseJSON, hbad]
  unfold doPoll
  simp only [hresp, hbody, hp]
  by_cases hd : cfg.datastore = "" <;> simp [calls, hd]

/-- The outcome and recorder calls of `doPoll` on a body that decodes to no light. -/
theorem doPoll_calls_empty (cfg : Config) (unmarshal : Unmarshal) (format : Time → String)
    (env : PollEnv) (resp : Response) (body : String) (n : Int)
    (hresp : env.result = .ok resp) (hbody : resp.Body = .ok body)
    (hvalid : unmarshal body = .ok ⟨n, []⟩) :
    (doPoll cfg unmarshal format env).1
      = .panicked "runtime error: index out of range [0] with length 0" ∧
    calls (doPoll cfg unmarshal format env).2 =
      [.measureLastPoll env.pollTime, .measurePollDur env.durPoll,
       .measureStatusCode resp.StatusCode, .measureLastGoodPoll env.pollTime,
       .measureParseDur env.jsonDur] := by
  have hp : parseJSON unmarshal body env.jsonTime env.jsonDur =
      (.panicked "runtime error: index out of range [0] with length 0",
        [.call (.measureParseDur env.jsonDur)]) := by
    simp [parseJSON, hvalid]
  unfold doPoll
  simp only [hresp, hbody, hp]
  by_cases hd : cfg.datastore = "" <;> simp [calls, hd]

/-- The recorder calls of `doPoll` in each of the five ways a cycle can go. -/
theorem doPoll_calls_cases (cfg : Config) (unmarshal : Unmarshal) (format : Time → String)
    (env : PollEnv) :
    calls (doPoll cfg unmarshal format env).2 =
      [.measureLastPoll env.pollTime, .measurePollDur env.durPoll,
       .measureLastError env.pollTime, .measurePolls "error"] ∨
    (∃ code, calls (doPoll cfg unmarshal format env).2 =
      [.measureLastPoll env.pollTime, .measurePollDur env.durPoll,
       .measureStatusCode code, .measurePolls "error-readall"]) ∨
    (∃ code, calls (doPoll cfg unmarshal format env).2 =
      [.measureLastPoll env.pollTime, .measurePollDur env.durPoll,
       .measureStatusCode code, .measureLastGoodPoll env.pollTime,
       .measureParseDur env.jsonDur, .measureLastError env.jsonTime]) ∨
    (∃ code, calls (doPoll cfg unmarshal format env).2 =
      [.measureLastPoll env.pollTime, .measurePollDur env.durPoll,
       .measureStatusCode code, .measureLastGoodPoll env.pollTime,
       .measureParseDur env.jsonDur]) ∨
    (∃ (code : Int) (l : elgatoLight), calls (doPoll cfg unmarshal format env).2 =
      [.measureLastPoll env.pollTime, .measurePollDur env.durPoll,
       .measureStatusCode code, .measureLastGoodPoll env.pollTime,
       .measureParseDur env.jsonDur, .measureOnOff l.On, .measureBrightness l.Brightness,
       .measureTemperature l.Temperature, .measureParseDur env.durParse,
       .measurePolls "ok"]) := by
  cases hres : env.result with
  | error e =>
    have hf : env.requestFailed = true := by simp [PollEnv.requestFailed, hres]
    exact Or.inl (doPoll_failed cfg unmarshal format env hf).2
  | ok resp =>
    cases hbody : resp.Body with
    | error e =>
      refine Or.inr (Or.inl ⟨resp.StatusCode, ?_⟩)
      rw [doPoll_read_failed cfg unmarshal format env resp e hres hbody]
      rfl
    | ok body =>
      cases hum : unmarshal body with
      | error e =>
        exact Or.inr (Or.inr (Or.inl ⟨resp.StatusCode,
          (doPoll_calls_malformed cfg unmarshal format env resp body e hres hbody hum).2.1⟩))
      | ok r =>
        obtain ⟨n, lights⟩ := r
        cases lights with
        | nil =>
          exact Or.inr (Or.inr (Or.inr (Or.inl ⟨resp.StatusCode,
            (doPoll_calls_empty cfg unmarshal format env resp body n hres hbody hum).2⟩)))
        | cons l rest =>
          exact Or.inr (Or.inr (Or.inr (Or.inr ⟨resp.StatusCode, l,
            (doPoll_calls_ok cfg unmarshal format env resp body n l rest hres hbody hum).2⟩)))

/-- Every trace of `doPoll` starts with the request, followed by the last-poll call. -/
theorem doPoll_trace_head (cfg : Config) (unmarshal : Unmarshal) (format : Time → String)
    (env : PollEnv) :
    ∃ rest, (doPoll cfg unmarshal format env).2 =
      .httpDo (pollURL cfg) :: .call (.measureLastPoll env.pollTime) :: rest := by
  cases hres : env.result with
  | error e => simp [doPoll, hres]
  | ok resp =>
    cases hbody : resp.Body with
    | error e => simp [doPoll, hres, hbody]
    | ok body =>
      rcases hp : parseJSON unmarshal body env.jsonTime env.jsonDur with ⟨st, tp⟩
      cases st with
      | exited c => simp [doPoll, hres, hbody, hp]
      | panicked m => simp [doPoll, hres, hbody, hp]
      | returned err => cases err <;> simp [doPoll, hres, hbody, hp]

/-- A magnitude below 2^53 has no excess bits. -/
theorem excessBits_of_lt (fuel a : Nat) (h : a < 2 ^ 53) : excessBits fuel a = 0 := by
  cases fuel with
  | zero => rfl
  | succ k => rw [excessBits, if_pos h]

/-- The conversion `float64` is exact on every integer of magnitude at most 2^53. -/
theorem float64_exact (x : Int) (h : x.natAbs ≤ 2 ^ 53) : float64 x = x := by
  have he : x.natAbs % 2 ^ excessBits 64 x.natAbs = 0 := by
    rcases Nat.lt_or_eq_of_le h with hlt | heq
    · rw [excessBits_of_lt 64 x.natAbs hlt, Nat.pow_zero, Nat.mod_one]
    · rw [heq]; decide
  have hpos : 0 < 2 ^ excessBits 64 x.natAbs := Nat.pow_pos (by decide)
  have hq : x.natAbs / 2 ^ excessBits 64 x.natAbs * 2 ^ excessBits 64 x.natAbs = x.natAbs :=
    Nat.div_mul_cancel (Nat.dvd_of_mod_eq_zero he)
  unfold float64
  simp only [he, Nat.mul_zero]
  have h1 : ¬ (0 > 2 ^ excessBits 64 x.natAbs) := by omega
  have h2 : ¬ (0 = 2 ^ excessBits 64 x.natAbs
      ∧ x.natAbs / 2 ^ excessBits 64 x.natAbs % 2 = 1) := by omega
  rw [if_neg (by intro hc; rcases hc with hc | hc; exact h1 hc; exact h2 hc), hq]
  exact Int.sign_mul_natAbs x

/-! ## Claims -/

/-- Counterexample to C1 as stated: a reply whose first light has brightness 2^53 + 1
decodes without error and `parseJSON` returns nil, but the brightness gauge then holds
2^53, which is not that field. -/
theorem parseJSON_gauge_rounding_counterexample :
    sampleUnmarshal bigBrightnessBody = .ok ⟨1, [⟨1, 9007199254740993, 198⟩]⟩ ∧
    (parseJSON sampleUnmarshal bigBrightnessBody ⟨0, 0⟩ 7000).1 = .returned none ∧
    (NewRecorder.replay
      (calls (parseJSON sampleUnmarshal bigBrightnessBody ⟨0, 0⟩ 7000).2)).elgatoBrightness
      = 9007199254740992 ∧
    (NewRecorder.replay
      (calls (parseJSON sampleUnmarshal bigBrightnessBody ⟨0, 0⟩ 7000).2)).elgatoBrightness
      ≠ 9007199254740993 := by
  refine ⟨rfl, rfl, ?_, ?_⟩ <;> decide

/-- Claim C1, amended.  Whenever the body decodes without error to a reply with at least
one light (whose fields are Go `int`s), `parseJSON` returns the nil error and its trace is
the parse-duration call followed by `measureOnOff`, `measureBrightness` and
`measureTemperature`, in that order, on the three fields of the first light.  Replayed on
any metric state, each of the three gauges then holds `float64` of its field, and it equals
the field whenever the field is at most 2^53 in absolute value.  Neither `NumberOfLights`
nor the lights after the first occur in the result. -/
theorem parseJSON_records_first_light (unmarshal : Unmarshal) (body : String)
    (parseTime : Time) (durParse : Duration) (n : Int) (l : elgatoLight)
    (rest : List elgatoLight) (hvalid : unmarshal body = .ok ⟨n, l :: rest⟩)
    (hint : fitsInt l.On ∧ fitsInt l.Brightness ∧ fitsInt l.Temperature)
    (r0 : prometheusRecorder) :
    parseJSON unmarshal body parseTime durParse =
      (.returned none,
        [.call (.measureParseDur durParse), .call (.measureOnOff l.On),
         .call (.measureBrightness l.Brightness), .call (.measureTemperature l.Temperature)]) ∧
    gaugeCalls (calls (parseJSON unmarshal body parseTime durParse).2) =
      [.measureOnOff l.On, .measureBrightness l.Brightness,
       .measureTemperature l.Temperature] ∧
    (r0.replay (calls (parseJSON unmarshal body parseTime durParse).2)).elgatoOnOff
      = float64 l.On ∧
    (r0.replay (calls (parseJSON unmarshal body parseTime durParse).2)).elgatoBrightness
      = float64 l.Brightness ∧
    (r0.replay (calls (parseJSON unmarshal body parseTime durParse).2)).elgatoTemperature
      = float64 l.Temperature ∧
    (l.On.natAbs ≤ 2 ^ 53 →
      (r0.replay (calls (parseJSON unmarshal body parseTime durParse).2)).elgatoOnOff
        = l.On) ∧
    (l.Brightness.natAbs ≤ 2 ^ 53 →
      (r0.replay (calls (parseJSON unmarshal body parseTime durParse).2)).elgatoBrightness
        = l.Brightness) ∧
    (l.Temperature.natAbs ≤ 2 ^ 53 →
      (r0.replay (calls (parseJSON unmarshal body parseTime durParse).2)).elgatoTemperature
        = l.Temperature) := by
  have _hrange := hint
  have hp := parseJSON_cons unmarshal body parseTime durParse n l rest hvalid
  rw [hp]
  refine ⟨rfl, rfl, rfl, rfl, rfl, fun h => ?_, fun h => ?_, fun h => ?_⟩
  · exact float64_exact l.On h
  · exact float64_exact l.Brightness h
  · exact float64_exact l.Temperature h

/-- Witness of C1, amended: the reply quoted in main.go gives onoff 1, brightness 55 and
temperature 198 on a fresh recorder, and of a reply with two lights only the first one is
recorded. -/
theorem parseJSON_records_first_light_witness :
    sampleUnmarshal sampleBody = .ok ⟨1, [⟨1, 55, 198⟩]⟩ ∧
    (fitsInt 1 ∧ fitsInt 55 ∧ fitsInt 198) ∧
    (parseJSON sampleUnmarshal sampleBody ⟨0, 0⟩ 7000).1 = .returned none ∧
    (NewRecorder.replay (calls (parseJSON sampleUnmarshal sampleBody ⟨0, 0⟩ 7000).2)).elgatoOnOff
      = 1 ∧
    (NewRecorder.replay
      (calls (parseJSON sampleUnmarshal sampleBody ⟨0, 0⟩ 7000).2)).elgatoBrightness = 55 ∧
    (NewRecorder.replay
      (calls (parseJSON sampleUnmarshal sampleBody ⟨0, 0⟩ 7000).2)).elgatoTemperature = 198 ∧
    sampleUnmarshal twoLightsBody = .ok ⟨2, [⟨0, 7, 344⟩, ⟨1, 90, 143⟩]⟩ ∧
    gaugeCalls (calls (parseJSON sampleUnmarshal twoLightsBody ⟨0, 0⟩ 7000).2)
      = [.measureOnOff 0, .measureBrightness 7, .measureTemperature 344] ∧
    (NewRecorder.replay
      (calls (parseJSON sampleUnmarshal twoLightsBody ⟨0, 0⟩ 7000).2)).elgatoTemperature
      = 344 :=
  have h := parseJSON_records_first_light sampleUnmarshal sampleBody ⟨0, 0⟩ 7000 1
    ⟨1, 55, 198⟩ [] rfl (by decide) NewRecorder
  have h2 := parseJSON_records_first_light sampleUnmarshal twoLightsBody ⟨0, 0⟩ 7000 2
    ⟨0, 7, 344⟩ [⟨1, 90, 143⟩] rfl (by decide) NewRecorder
  ⟨rfl, by decide, congrArg Prod.fst h.1, h.2.2.2.2.2.1 (by decide),
    h.2.2.2.2.2.2.1 (by decide), h.2.2.2.2.2.2.2 (by decide), rfl, h2.2.1,
    h2.2.2.2.2.2.2.2 (by decide)⟩

/-- Claim C2.  In a cycle whose request returns a reply (any status code), whose body is
read and decodes to a reply with at least one light, `doPoll` returns, and its recorder
calls are, in order: last poll, poll duration, the status code, the last-good-poll time
(the poll start time), the parse duration and the three values of the first light, the
parse duration again, and `measurePolls` with label `ok`.  Hence `ok` is the only outcome
label, no last-error time is recorded, and on any metric state the `ok` counter grows by
one while no other outcome counter and not the last-error gauge changes. -/
theorem doPoll_good_reply_records_ok (cfg : Config) (unmarshal : Unmarshal)
    (format : Time → String) (env : PollEnv) (resp : Response) (body : String) (n : Int)
    (l : elgatoLight) (rest : List elgatoLight) (hresp : env.result = .ok resp)
    (hbody : resp.Body = .ok body) (hvalid : unmarshal body = .ok ⟨n, l :: rest⟩)
    (r0 : prometheusRecorder) :
    (doPoll cfg unmarshal format env).1 = .returned () ∧
    calls (doPoll cfg unmarshal format env).2 =
      [.measureLastPoll env.pollTime, .measurePollDur env.durPoll,
       .measureStatusCode resp.StatusCode, .measureLastGoodPoll env.pollTime,
       .measureParseDur env.jsonDur, .measureOnOff l.On, .measureBrightness l.Brightness,
       .measureTemperature l.Temperature, .measureParseDur env.durParse,
       .measurePolls "ok"] ∧
    pollLabels (calls (doPoll cfg unmarshal format env).2) = ["ok"] ∧
    lastErrors (calls (doPoll cfg unmarshal format env).2) = [] ∧
    statusCodes (calls (doPoll cfg unmarshal format env).2) = [resp.StatusCode] ∧
    lastGoodPolls (calls (doPoll cfg unmarshal format env).2) = [env.pollTime] ∧
    (r0.replay (calls (doPoll cfg unmarshal format env).2)).elgatoPolls
      = WithLabelValuesAdd r0.elgatoPolls "ok" 1 ∧
    (r0.replay (calls (doPoll cfg unmarshal format env).2)).elgatoLastErrorTimeSeconds
      = r0.elgatoLastErrorTimeSeconds ∧
    (r0.replay (calls (doPoll cfg unmarshal format env).2)).elgatoLastGoodPollSeconds
      = env.pollTime.Unix := by
  obtain ⟨h1, h2⟩ := doPoll_calls_ok cfg unmarshal format env resp body n l rest hresp hbody hvalid
  rw [h2]
  exact ⟨h1, rfl, rfl, rfl, rfl, rfl, rfl, rfl, rfl⟩

/-- Witness of C2: a reply with status 503 carrying the sample body is recorded as `ok`. -/
theorem doPoll_good_reply_records_ok_witness :
    (replyEnv 503 sampleBody).result = .ok ⟨503, .ok sampleBody⟩ ∧
    sampleUnmarshal sampleBody = .ok ⟨1, [⟨1, 55, 198⟩]⟩ ∧
    (doPoll RegisterFlags sampleUnmarshal sampleFormat (replyEnv 503 sampleBody)).1
      = .returned () ∧
    pollLabels (calls (doPoll RegisterFlags sampleUnmarshal sampleFormat
      (replyEnv 503 sampleBody)).2) = ["ok"] ∧
    lastErrors (calls (doPoll RegisterFlags sampleUnmarshal sampleFormat
      (replyEnv 503 sampleBody)).2) = [] ∧
    statusCodes (calls (doPoll RegisterFlags sampleUnmarshal sampleFormat
      (replyEnv 503 sampleBody)).2) = [503] :=
  have h := doPoll_good_reply_records_ok RegisterFlags sampleUnmarshal sampleFormat
    (replyEnv 503 sampleBody) ⟨503, .ok sampleBody⟩ sampleBody 1 ⟨1, 55, 198⟩ [] rfl rfl rfl
    NewRecorder
  ⟨rfl, rfl, h.1, h.2.2.1, h.2.2.2.1, h.2.2.2.2.1⟩

/-- Claim C5.  In a cycle whose request fails, `doPoll` returns after exactly these steps:
the request, last poll, poll duration, the printed message, the last-error time (the poll
start time) and one `measurePolls` with label `error`.  So it records one outcome, labelled
`error`, and no status code, no last-good-poll time and no parse duration. -/
theorem doPoll_request_failure_records_error (cfg : Config) (unmarshal : Unmarshal)
    (format : Time → String) (env : PollEnv) (err : String)
    (hfail : env.result = .error err) :
    doPoll cfg unmarshal format env =
      (.returned (),
        [.httpDo (pollURL cfg), .call (.measureLastPoll env.pollTime),
         .call (.measurePollDur env.durPoll), .print ("Got error [" ++ err ++ "]\n"),
         .call (.measureLastError env.pollTime), .call (.measurePolls "error")]) ∧
    pollLabels (calls (doPoll cfg unmarshal format env).2) = ["error"] ∧
    lastErrors (calls (doPoll cfg unmarshal format env).2) = [env.pollTime] ∧
    statusCodes (calls (doPoll cfg unmarshal format env).2) = [] ∧
    lastGoodPolls (calls (doPoll cfg unmarshal format env).2) = [] ∧
    parseDurs (calls (doPoll cfg unmarshal format env).2) = [] ∧
    gaugeCalls (calls (doPoll cfg unmarshal format env).2) = [] := by
  have h : doPoll cfg unmarshal format env =
      (.returned (),
        [.httpDo (pollURL cfg), .call (.measureLastPoll env.pollTime),
         .call (.measurePollDur env.durPoll), .print ("Got error [" ++ err ++ "]\n"),
         .call (.measureLastError env.pollTime), .call (.measurePolls "error")]) := by
    simp [doPoll, hfail]
  rw [h]
  exact ⟨rfl, rfl, rfl, rfl, rfl, rfl, rfl⟩

/-- Witness of C5: a request that times out. -/
theorem doPoll_request_failure_records_error_witness :
    timeoutEnv.result = .error "context deadline exceeded" ∧
    pollLabels (calls (doPoll RegisterFlags sampleUnmarshal sampleFormat timeoutEnv).2)
      = ["error"] ∧
    lastErrors (calls (doPoll RegisterFlags sampleUnmarshal sampleFormat timeoutEnv).2)
      = [⟨1700000000, 250⟩] ∧
    statusCodes (calls (doPoll RegisterFlags sampleUnmarshal sampleFormat timeoutEnv).2) = [] ∧
    lastGoodPolls (calls (doPoll RegisterFlags sampleUnmarshal sampleFormat timeoutEnv).2)
      = [] ∧
    parseDurs (calls (doPoll RegisterFlags sampleUnmarshal sampleFormat timeoutEnv).2) = [] :=
  have h := doPoll_request_failure_records_error RegisterFlags sampleUnmarshal sampleFormat
    timeoutEnv "context deadline exceeded" rfl
  ⟨rfl, h.2.1, h.2.2.1, h.2.2.2.1, h.2.2.2.2.1, h.2.2.2.2.2.1⟩

/-- Claim C6.  For every N, after N cycles of the loop whose requests all fail, starting
from the recorder made by `NewRecorder`, the process is still looping, the `error` counter
of `elgatoPolls` is N, the counter of every other label is 0, `measureLastGoodPoll` was
never called and the last-good-poll gauge still has the value `NewRecorder` gave it. -/
theorem pollLoop_failing_network_counts (N : Nat) (cfg : Config) (unmarshal : Unmarshal)
    (format : Time → String) (envs : List PollEnv) (hlen : envs.length = N)
    (hall : ∀ env ∈ envs, env.requestFailed = true) :
    (pollLoop cfg unmarshal format envs).1 = .returned () ∧
    (NewRecorder.replay (calls (pollLoop cfg unmarshal format envs).2)).elgatoPolls "error"
      = N ∧
    (∀ label : String, label ≠ "error" →
      (NewRecorder.replay (calls (pollLoop cfg unmarshal format envs).2)).elgatoPolls label
        = 0) ∧
    lastGoodPolls (calls (pollLoop cfg unmarshal format envs).2) = [] ∧
    (NewRecorder.replay
      (calls (pollLoop cfg unmarshal format envs).2)).elgatoLastGoodPollSeconds
      = NewRecorder.elgatoLastGoodPollSeconds := by
  obtain ⟨h1, _, h3, h4⟩ := pollLoop_failed cfg unmarshal format envs hall
  obtain ⟨hp, hg⟩ := h4 NewRecorder
  refine ⟨h1, ?_, ?_, h3, hg⟩
  · rw [hp]; simp [WithLabelValuesAdd, NewRecorder, hlen]
  · intro label hne
    rw [hp]; simp [WithLabelValuesAdd, NewRecorder, hne]

/-- Witness of C6: three cycles that all time out leave the `error` counter at 3. -/
theorem pollLoop_failing_network_counts_witness :
    [timeoutEnv, timeoutEnv, timeoutEnv].length = 3 ∧
    (∀ env ∈ [timeoutEnv, timeoutEnv, timeoutEnv], env.requestFailed = true) ∧
    (NewRecorder.replay (calls (pollLoop RegisterFlags sampleUnmarshal sampleFormat
      [timeoutEnv, timeoutEnv, timeoutEnv]).2)).elgatoPolls "error" = 3 ∧
    (NewRecorder.replay (calls (pollLoop RegisterFlags sampleUnmarshal sampleFormat
      [timeoutEnv, timeoutEnv, timeoutEnv]).2)).elgatoPolls "ok" = 0 ∧
    (NewRecorder.replay (calls (pollLoop RegisterFlags sampleUnmarshal sampleFormat
      [timeoutEnv, timeoutEnv, timeoutEnv]).2)).elgatoLastGoodPollSeconds = 0 :=
  have hall : ∀ env ∈ [timeoutEnv, timeoutEnv, timeoutEnv], env.requestFailed = true := by
    intro env henv
    simp only [List.mem_cons, List.mem_singleton, List.not_mem_nil, or_false, or_self] at henv
    subst henv
    rfl
  have h := pollLoop_failing_network_counts 3 RegisterFlags sampleUnmarshal sampleFormat
    [timeoutEnv, timeoutEnv, timeoutEnv] rfl hall
  ⟨rfl, hall, h.2.1, h.2.2.1 "ok" (by decide), h.2.2.2.2⟩

/-- Claim C3 (the code departs from it).  In a cycle whose body `json.Unmarshal` rejects,
`doPoll` records last poll, poll duration, the status code, the last-good-poll time, the
parse duration and the last-error time (the reading taken inside `parseJSON`), and then
`log.Fatal` ends the process with status 1: no outcome label at all is recorded, neither
`parse-error` nor `ok`, and the last step of the trace is the fatal log line. -/
theorem doPoll_malformed_body_exits (cfg : Config) (unmarshal : Unmarshal)
    (format : Time → String) (env : PollEnv) (resp : Response) (body : String)
    (err : String) (hresp : env.result = .ok resp) (hbody : resp.Body = .ok body)
    (hbad : unmarshal body = .error err) :
    (doPoll cfg unmarshal format env).1 = .exited 1 ∧
    calls (doPoll cfg unmarshal format env).2 =
      [.measureLastPoll env.pollTime, .measurePollDur env.durPoll,
       .measureStatusCode resp.StatusCode, .measureLastGoodPoll env.pollTime,
       .measureParseDur env.jsonDur, .measureLastError env.jsonTime] ∧
    pollLabels (calls (doPoll cfg unmarshal format env).2) = [] ∧
    (doPoll cfg unmarshal format env).2.getLast? = some (.logFatal ("parsing:" ++ err)) := by
  obtain ⟨h1, h2, h3⟩ :=
    doPoll_calls_malformed cfg unmarshal format env resp body err hresp hbody hbad
  rw [h2]
  exact ⟨h1, rfl, rfl, h3⟩

/-- Witness of C3: a reply with status 200 and the body `not json` ends the process. -/
theorem doPoll_malformed_body_exits_witness :
    (replyEnv 200 malformedBody).result = .ok ⟨200, .ok malformedBody⟩ ∧
    sampleUnmarshal malformedBody
      = .error "invalid character 'o' in literal null (expecting 'u')" ∧
    (doPoll RegisterFlags sampleUnmarshal sampleFormat (replyEnv 200 malformedBody)).1
      = .exited 1 ∧
    pollLabels (calls (doPoll RegisterFlags sampleUnmarshal sampleFormat
      (replyEnv 200 malformedBody)).2) = [] :=
  have h := doPoll_malformed_body_exits RegisterFlags sampleUnmarshal sampleFormat
    (replyEnv 200 malformedBody) ⟨200, .ok malformedBody⟩ malformedBody
    "invalid character 'o' in literal null (expecting 'u')" rfl rfl rfl
  ⟨rfl, rfl, h.1, h.2.2.1⟩

/-- Claim C4 (the code departs from it).  When the body decodes without error to a reply
whose `Lights` is empty, `parseJSON` does not return an error: after recording the parse
duration it panics on the index expression `r.Lights[0]`.  No gauge call is made. -/
theorem parseJSON_empty_lights_panics (unmarshal : Unmarshal) (body : String)
    (parseTime : Time) (durParse : Duration) (n : Int)
    (hvalid : unmarshal body = .ok ⟨n, []⟩) :
    parseJSON unmarshal body parseTime durParse =
      (.panicked "runtime error: index out of range [0] with length 0",
        [.call (.measureParseDur durParse)]) ∧
    gaugeCalls (calls (parseJSON unmarshal body parseTime durParse).2) = [] := by
  have h : parseJSON unmarshal body parseTime durParse =
      (.panicked "runtime error: index out of range [0] with length 0",
        [.call (.measureParseDur durParse)]) := by
    simp [parseJSON, hvalid]
  rw [h]
  exact ⟨rfl, rfl⟩

/-- Witness of C4: the reply with an empty `lights` array makes `parseJSON` panic. -/
theorem parseJSON_empty_lights_panics_witness :
    sampleUnmarshal emptyLightsBody = .ok ⟨0, []⟩ ∧
    (parseJSON sampleUnmarshal emptyLightsBody ⟨0, 0⟩ 7000).1
      = .panicked "runtime error: index out of range [0] with length 0" ∧
    gaugeCalls (calls (parseJSON sampleUnmarshal emptyLightsBody ⟨0, 0⟩ 7000).2) = [] :=
  have h := parseJSON_empty_lights_panics sampleUnmarshal emptyLightsBody ⟨0, 0⟩ 7000 0 rfl
  ⟨rfl, congrArg Prod.fst h.1, h.2⟩

/-- Counterexample to C7 as stated: when the body of a reply cannot be read, the label
`readAllError` is recorded zero times, not once (the one label recorded is
`error-readall`), and no last-error time is recorded. -/
theorem doPoll_read_failure_label_counterexample :
    (pollLabels (calls (doPoll RegisterFlags sampleUnmarshal sampleFormat
        readFailEnv).2)).count "readAllError" = 0 ∧
    pollLabels (calls (doPoll RegisterFlags sampleUnmarshal sampleFormat readFailEnv).2)
      = ["error-readall"] ∧
    lastErrors (calls (doPoll RegisterFlags sampleUnmarshal sampleFormat readFailEnv).2)
      = [] := by
  decide

/-- Claim C7, amended.  In a cycle whose reply arrives but whose body cannot be read,
`doPoll` returns after exactly these steps: the request, last poll, poll duration, the
status code, the failed read, one `measurePolls` with label `error-readall`, and the
deferred close.  So that label is recorded exactly once, and there is no last-good-poll
time, no parse duration, no gauge update and no `ok` outcome. -/
theorem doPoll_read_failure_records_error_readall (cfg : Config) (unmarshal : Unmarshal)
    (format : Time → String) (env : PollEnv) (resp : Response) (err : String)
    (hresp : env.result = .ok resp) (hbody : resp.Body = .error err) :
    doPoll cfg unmarshal format env =
      (.returned (),
        [.httpDo (pollURL cfg), .call (.measureLastPoll env.pollTime),
         .call (.measurePollDur env.durPoll), .call (.measureStatusCode resp.StatusCode),
         .readAll, .call (.measurePolls "error-readall"), .closeBody]) ∧
    pollLabels (calls (doPoll cfg unmarshal format env).2) = ["error-readall"] ∧
    lastGoodPolls (calls (doPoll cfg unmarshal format env).2) = [] ∧
    parseDurs (calls (doPoll cfg unmarshal format env).2) = [] ∧
    gaugeCalls (calls (doPoll cfg unmarshal format env).2) = [] := by
  have h := doPoll_read_failed cfg unmarshal format env resp err hresp hbody
  rw [h]
  exact ⟨rfl, rfl, rfl, rfl, rfl⟩

/-- Witness of C7, amended: a reply with status 200 whose body read ends early. -/
theorem doPoll_read_failure_records_error_readall_witness :
    readFailEnv.result = .ok ⟨200, .error "unexpected EOF"⟩ ∧
    (doPoll RegisterFlags sampleUnmarshal sampleFormat readFailEnv).1 = .returned () ∧
    pollLabels (calls (doPoll RegisterFlags sampleUnmarshal sampleFormat readFailEnv).2)
      = ["error-readall"] ∧
    lastGoodPolls (calls (doPoll RegisterFlags sampleUnmarshal sampleFormat readFailEnv).2)
      = [] ∧
    parseDurs (calls (doPoll RegisterFlags sampleUnmarshal sampleFormat readFailEnv).2) = [] :=
  have h := doPoll_read_failure_records_error_readall RegisterFlags sampleUnmarshal
    sampleFormat readFailEnv ⟨200, .error "unexpected EOF"⟩ "unexpected EOF" rfl rfl
  ⟨rfl, congrArg Prod.fst h.1, h.2.1, h.2.2.1, h.2.2.2.1⟩

/-- Counterexample to C8 as stated: when the body of a reply cannot be read, `doPoll`
passes a label that is none of `ok`, `error`, `readAllError`, `parseError`; and on a body
that is not JSON it passes no label at all, so a parse failure does not use `parseError`. -/
theorem doPoll_labels_counterexample :
    ¬ (∀ s ∈ pollLabels (calls (doPoll RegisterFlags sampleUnmarshal sampleFormat
        readFailEnv).2), s ∈ ["ok", "error", "readAllError", "parseError"]) ∧
    "parseError" ∉ pollLabels (calls (doPoll RegisterFlags sampleUnmarshal sampleFormat
        (replyEnv 200 malformedBody)).2) := by
  decide

/-- Claim C8, amended.  Every label `doPoll` passes to `measurePolls` is one of the four
strings `ok`, `error`, `error-readall`, `parse-error` of the source.  A failed request is
recorded with the single label `error`, a failed body read with the single label
`error-readall`, and a reply that decodes to at least one light with the single label
`ok`. -/
theorem doPoll_outcome_labels (cfg : Config) (unmarshal : Unmarshal)
    (format : Time → String) (env : PollEnv) :
    (∀ s ∈ pollLabels (calls (doPoll cfg unmarshal format env).2),
      s ∈ ["ok", "error", "error-readall", "parse-error"]) ∧
    (∀ err, env.result = .error err →
      pollLabels (calls (doPoll cfg unmarshal format env).2) = ["error"]) ∧
    (∀ resp err, env.result = .ok resp → resp.Body = .error err →
      pollLabels (calls (doPoll cfg unmarshal format env).2) = ["error-readall"]) ∧
    (∀ resp body n l rest, env.result = .ok resp → resp.Body = .ok body →
      unmarshal body = .ok ⟨n, l :: rest⟩ →
      pollLabels (calls (doPoll cfg unmarshal format env).2) = ["ok"]) := by
  refine ⟨?_, ?_, ?_, ?_⟩
  · intro s hs
    rcases doPoll_calls_cases cfg unmarshal format env with
      h | ⟨c, h⟩ | ⟨c, h⟩ | ⟨c, h⟩ | ⟨c, l, h⟩ <;>
    · rw [h] at hs
      simp [pollLabels] at hs
      try simp [hs]
  · intro err hfail
    have hf : env.requestFailed = true := by simp [PollEnv.requestFailed, hfail]
    rw [(doPoll_failed cfg unmarshal format env hf).2]
    rfl
  · intro resp err hresp hbody
    rw [doPoll_read_failed cfg unmarshal format env resp err hresp hbody]
    rfl
  · intro resp body n l rest hresp hbody hvalid
    rw [(doPoll_calls_ok cfg unmarshal format env resp body n l rest hresp hbody hvalid).2]
    rfl

/-- Witness of C8, amended: the three kinds of cycle on concrete inputs. -/
theorem doPoll_outcome_labels_witness :
    pollLabels (calls (doPoll RegisterFlags sampleUnmarshal sampleFormat timeoutEnv).2)
      = ["error"] ∧
    pollLabels (calls (doPoll RegisterFlags sampleUnmarshal sampleFormat readFailEnv).2)
      = ["error-readall"] ∧
    pollLabels (calls (doPoll RegisterFlags sampleUnmarshal sampleFormat
      (replyEnv 200 twoLightsBody)).2) = ["ok"] ∧
    "error-readall" ∈ ["ok", "error", "error-readall", "parse-error"] :=
  ⟨(doPoll_outcome_labels RegisterFlags sampleUnmarshal sampleFormat timeoutEnv).2.1
      "context deadline exceeded" rfl,
    (doPoll_outcome_labels RegisterFlags sampleUnmarshal sampleFormat readFailEnv).2.2.1
      ⟨200, .error "unexpected EOF"⟩ "unexpected EOF" rfl rfl,
    (doPoll_outcome_labels RegisterFlags sampleUnmarshal sampleFormat
      (replyEnv 200 twoLightsBody)).2.2.2
      ⟨200, .ok twoLightsBody⟩ twoLightsBody 2 ⟨0, 7, 344⟩ [⟨1, 90, 143⟩] rfl rfl rfl,
    (doPoll_outcome_labels RegisterFlags sampleUnmarshal sampleFormat readFailEnv).1
      "error-readall" (by decide)⟩

/-- Counterexample to C9 as stated: in a cycle with a good reply the last-poll call does
not come before the request; the request is step 0 of the trace and the call is step 1. -/
theorem doPoll_last_poll_before_send_counterexample :
    ¬ (firstIdx Event.isLastPoll
        (doPoll RegisterFlags sampleUnmarshal sampleFormat (replyEnv 200 sampleBody)).2
      < firstIdx Event.isSend
        (doPoll RegisterFlags sampleUnmarshal sampleFormat (replyEnv 200 sampleBody)).2) := by
  decide

/-- Claim C9, amended.  In every cycle, however it ends, `doPoll` calls `measureLastPoll`
exactly once, with the poll start time, and that call is the step right after the HTTP
request: the trace begins with the request and then the last-poll call, so the request
comes first. -/
theorem doPoll_last_poll_once_after_send (cfg : Config) (unmarshal : Unmarshal)
    (format : Time → String) (env : PollEnv) :
    (∃ rest, (doPoll cfg unmarshal format env).2 =
      .httpDo (pollURL cfg) :: .call (.measureLastPoll env.pollTime) :: rest) ∧
    lastPolls (calls (doPoll cfg unmarshal format env).2) = [env.pollTime] ∧
    firstIdx Event.isSend (doPoll cfg unmarshal format env).2
      < firstIdx Event.isLastPoll (doPoll cfg unmarshal format env).2 := by
  refine ⟨doPoll_trace_head cfg unmarshal format env, ?_, ?_⟩
  · rcases doPoll_calls_cases cfg unmarshal format env with
      h | ⟨c, h⟩ | ⟨c, h⟩ | ⟨c, h⟩ | ⟨c, l, h⟩ <;>
    · rw [h]; rfl
  · obtain ⟨rest, h⟩ := doPoll_trace_head cfg unmarshal format env
    rw [h]
    simp [firstIdx, Event.isSend, Event.isLastPoll]

/-- Claim C10 (the code departs from it).  In a cycle whose body decodes to at least one
light, `measureParseDur` is called twice, once inside `parseJSON` and once by `doPoll`
after it returns, so the parse-duration counter grows by the sum of both measurements. -/
theorem doPoll_parse_duration_recorded_twice (cfg : Config) (unmarshal : Unmarshal)
    (format : Time → String) (env : PollEnv) (resp : Response) (body : String) (n : Int)
    (l : elgatoLight) (rest : List elgatoLight) (hresp : env.result = .ok resp)
    (hbody : resp.Body = .ok body) (hvalid : unmarshal body = .ok ⟨n, l :: rest⟩)
    (r0 : prometheusRecorder) :
    parseDurs (calls (doPoll cfg unmarshal format env).2) = [env.jsonDur, env.durParse] ∧
    (r0.replay (calls (doPoll cfg unmarshal format env).2)).elgatoParseDurSeconds
      = r0.elgatoParseDurSeconds + env.jsonDur + env.durParse := by
  rw [(doPoll_calls_ok cfg unmarshal format env resp body n l rest hresp hbody hvalid).2]
  exact ⟨rfl, rfl⟩

/-- Witness of C10: on the sample reply the measurements 7000 ns and 9000 ns are both
added, and the counter of a fresh recorder ends at 16000 ns. -/
theorem doPoll_parse_duration_recorded_twice_witness :
    (replyEnv 200 sampleBody).result = .ok ⟨200, .ok sampleBody⟩ ∧
    sampleUnmarshal sampleBody = .ok ⟨1, [⟨1, 55, 198⟩]⟩ ∧
    parseDurs (calls (doPoll RegisterFlags sampleUnmarshal sampleFormat
      (replyEnv 200 sampleBody)).2) = [7000, 9000] ∧
    (NewRecorder.replay (calls (doPoll RegisterFlags sampleUnmarshal sampleFormat
      (replyEnv 200 sampleBody)).2)).elgatoParseDurSeconds = 16000 :=
  have h := doPoll_parse_duration_recorded_twice RegisterFlags sampleUnmarshal sampleFormat
    (replyEnv 200 sampleBody) ⟨200, .ok sampleBody⟩ sampleBody 1 ⟨1, 55, 198⟩ [] rfl rfl rfl
    NewRecorder
  ⟨rfl, rfl, h.1, h.2⟩

end Elgato
